import Mathlib

/-!
Verification of the deterministic pricing and context-inference core of the
GoodRx chat demo (`src/goodrxapp.py`).

The Python core operates on floats whose reachable values are exact decimals;
we embed prices and spend amounts as rationals (`ℚ`).  Python's built-in
`round(x, 2)` rounds half to even; it is embedded exactly as `pyRound`.
Dictionary lookups that can fail (`CATALOG["plans"][p]`, a `KeyError` in
Python) are embedded as `Option`, with `none` standing for the raised error,
and functions that perform such lookups return `Option` results.
Text is embedded as `String` (a list of characters in this Lean version);
Python's `s.lower()` is `lowerStr` and Python's substring test `k in s` is
`strContains s k`.
-/

namespace GoodRx

/-- Rounding of a rational to an integer, half-to-even (banker's rounding),
exactly Python 3's `round(q)` on an exact value. -/
def roundHalfEvenZ (q : ℚ) : ℤ :=
  let f := Int.floor q
  let frac := q - f
  if frac < 1/2 then f
  else if 1/2 < frac then f + 1
  else if f % 2 = 0 then f else f + 1

/-- Embedding of Python 3's `round(q, nd)` on an exact rational value:
scale, round half-to-even to an integer, unscale. -/
def pyRound (q : ℚ) (nd : ℕ) : ℚ :=
  (roundHalfEvenZ (q * 10 ^ nd) : ℚ) / 10 ^ nd

/-- Rounding of a rational to an integer with ties away from zero
("standard half-up rounding" in the spec's words).  Not the code's rounding;
used to compare the code's behaviour with the spec's claimed rounding mode. -/
def roundHalfUpZ (q : ℚ) : ℤ :=
  if 0 ≤ q then Int.floor (q + 1/2) else -Int.floor (-q + 1/2)

/-- Half-up rounding to `nd` decimal places (the spec's claimed mode). -/
def roundHalfUp (q : ℚ) (nd : ℕ) : ℚ :=
  (roundHalfUpZ (q * 10 ^ nd) : ℚ) / 10 ^ nd

/-- The `CATALOG["plans"]` table: offering name to `monthly_price`
(the `includes`/`description` fields are display-only and not needed). -/
def plans : List (String × ℚ) :=
  [("Diabetes Care", 29), ("Heart Health", 25)]

/-- Lookup `CATALOG["plans"][p]["monthly_price"]`; `none` is Python's
`KeyError` for a name absent from the plan table. -/
def lookupPlan (p : String) : Option ℚ :=
  plans.lookup p

/-- The `CATALOG["bundle_rules"]["any_two_plans_discount_pct"]` constant. -/
def any_two_plans_discount_pct : ℚ := 10

/-- The `CATALOG["demo_patient"]["current_spend"]` table. -/
def demo_current_spend : List (String × ℚ) :=
  [("Metformin", 42), ("ACE_inhibitor", 20)]

/-- Sum `CATALOG["plans"][p]["monthly_price"]` over `plan_names`;
`none` when any name is absent (the Python generator raises `KeyError`). -/
def sumPrices : List String → Option ℚ
  | [] => some 0
  | p :: ps => do
    let v ← lookupPlan p
    let rest ← sumPrices ps
    pure (v + rest)

/-- Embedding of `bundle_price` (src/goodrxapp.py:66-73): `0.0` on an empty
selection; otherwise the sum of unit prices, a 10% discount when two or more
names are selected, rounded to two decimals with Python's `round`. -/
def bundle_price (plan_names : List String) : Option ℚ :=
  if plan_names.isEmpty then some 0
  else do
    let base ← sumPrices plan_names
    let discount_pct : ℚ :=
      if 2 ≤ plan_names.length then any_two_plans_discount_pct else 0
    pure (pyRound (base * (1 - discount_pct / 100)) 2)

/-- Embedding of `current_spend_map.get(key, 0.0)`. -/
def spendGet (m : List (String × ℚ)) (key : String) : ℚ :=
  (m.lookup key).getD 0

/-- The local `current` accumulated in `savings_vs_current`
(src/goodrxapp.py:76-80): baseline spend entries added for each recognised
selected plan. -/
def current_total (selected_plans : List String)
    (current_spend_map : List (String × ℚ)) : ℚ :=
  (if selected_plans.contains "Diabetes Care"
    then spendGet current_spend_map "Metformin" else 0) +
  (if selected_plans.contains "Heart Health"
    then spendGet current_spend_map "ACE_inhibitor" else 0)

/-- The dictionary returned by `savings_vs_current` (src/goodrxapp.py:84-89). -/
structure SavingsQuote where
  current_monthly : ℚ
  new_monthly : ℚ
  monthly_savings : ℚ
  annual_savings : ℚ
deriving DecidableEq, Repr

/-- Embedding of `savings_vs_current` (src/goodrxapp.py:75-89).  The
`bundle_price` lookup failure (Python `KeyError`) propagates as `none`. -/
def savings_vs_current (selected_plans : List String)
    (current_spend_map : List (String × ℚ)) : Option SavingsQuote :=
  (bundle_price selected_plans).map fun new_monthly =>
    let current := current_total selected_plans current_spend_map
    let monthly_savings := pyRound (max (current - new_monthly) 0) 2
    { current_monthly := pyRound current 2
      new_monthly := new_monthly
      monthly_savings := monthly_savings
      annual_savings := pyRound (monthly_savings * 12) 2 }

/-- Character-wise lowercasing; Python's `str.lower()` on the ASCII texts
this application handles. -/
def lowerStr (s : String) : String := ⟨s.data.map Char.toLower⟩

/-- Check whether the second character list starts with the first one. -/
def leadsWith : List Char → List Char → Bool
  | [], _ => true
  | _ :: _, [] => false
  | a :: as, b :: bs => a == b && leadsWith as bs

/-- Substring occurrence on character lists at any position. -/
def containsSub (needle : List Char) : List Char → Bool
  | [] => needle.isEmpty
  | b :: bs => leadsWith needle (b :: bs) || containsSub needle bs

/-- Python's substring test `needle in hay`. -/
def strContains (hay needle : String) : Bool :=
  containsSub needle.data hay.data

/-- The local `text` of `infer_dynamic_context` (src/goodrxapp.py:92):
`(user_text + " " + history_text).lower()`. -/
def infer_text (user_text history_text : String) : String :=
  lowerStr (user_text ++ " " ++ history_text)

/-- The local `want_diabetes` of `infer_dynamic_context`
(src/goodrxapp.py:93). -/
def want_diabetes (user_text history_text : String) : Bool :=
  strContains (infer_text user_text history_text) "diabetes" ||
  strContains (infer_text user_text history_text) "metformin"

/-- The local `want_heart` of `infer_dynamic_context`
(src/goodrxapp.py:94). -/
def want_heart (user_text history_text : String) : Bool :=
  strContains (infer_text user_text history_text) "blood pressure" ||
  strContains (infer_text user_text history_text) " bp " ||
  strContains (infer_text user_text history_text) "ace" ||
  strContains (infer_text user_text history_text) "heart"

/-- The bundle-keyword condition of `infer_dynamic_context`
(src/goodrxapp.py:103): `"bundle" in text or "both" in text or
"together" in text`. -/
def bundle_intent (user_text history_text : String) : Bool :=
  strContains (infer_text user_text history_text) "bundle" ||
  strContains (infer_text user_text history_text) "both" ||
  strContains (infer_text user_text history_text) "together"

/-- The `ctx` dictionary built by `infer_dynamic_context`
(src/goodrxapp.py:100-107).  The Python `quotes` sub-dictionary holds the
optional keys `"selected_plans_quote"`, `"bundle_quote"` and
`"bundle_plans"`, embedded here as three `Option` fields; the empty quotes
mapping is all three being `none`. -/
structure Ctx where
  selected_plans : List String
  selected_plans_quote : Option SavingsQuote
  bundle_quote : Option SavingsQuote
  bundle_plans : Option (List String)
deriving DecidableEq, Repr

/-- Embedding of `infer_dynamic_context` (src/goodrxapp.py:91-107).  The
internal `savings_vs_current` calls can in principle fail on an unknown
plan name (Python `KeyError`), so the result is an `Option`; `none` would
mean the inference raised. -/
def infer_dynamic_context (user_text history_text : String) : Option Ctx := do
  let selected :=
    (if want_diabetes user_text history_text then ["Diabetes Care"] else []) ++
    (if want_heart user_text history_text then ["Heart Health"] else [])
  let spq ←
    if selected.isEmpty then pure none
    else (savings_vs_current selected demo_current_spend).map some
  if bundle_intent user_text history_text then
    let both := ["Diabetes Care", "Heart Health"]
    let bq ← savings_vs_current both demo_current_spend
    pure ⟨selected, spq, some bq, some both⟩
  else
    pure ⟨selected, spq, none, none⟩

/-- The quote for selection `["Diabetes Care"]` against the demo spend map. -/
def quoteD : SavingsQuote := ⟨42, 29, 13, 156⟩

/-- The quote for selection `["Heart Health"]` against the demo spend map. -/
def quoteH : SavingsQuote := ⟨20, 25, 0, 0⟩

/-- The quote for both plans against the demo spend map: current 62,
bundle 48.6, monthly savings 13.4, annual savings 160.8. -/
def quoteDH : SavingsQuote := ⟨62, 243/5, 67/5, 804/5⟩

/-- The selection list built by `infer_dynamic_context` as a function of its
two keyword flags. -/
def selOf (wd wh : Bool) : List String :=
  (if wd then ["Diabetes Care"] else []) ++ (if wh then ["Heart Health"] else [])

/-- The `selected_plans_quote` entry as a function of the two keyword flags. -/
def spqOf (wd wh : Bool) : Option SavingsQuote :=
  if wd then (if wh then some quoteDH else some quoteD)
  else (if wh then some quoteH else none)

/-- The full context built by `infer_dynamic_context` as a function of its
three keyword flags. -/
def inferResult (wd wh wb : Bool) : Ctx :=
  ⟨selOf wd wh, spqOf wd wh,
   if wb then some quoteDH else none,
   if wb then some ["Diabetes Care", "Heart Health"] else none⟩

/-- The keyword list of the inferencer: the per-offering keywords and the
bundle keywords of src/goodrxapp.py:93-94,103. -/
def keywords : List String :=
  ["diabetes", "metformin", "blood pressure", " bp ", "ace", "heart",
   "bundle", "both", "together"]

lemma savings_eval_D :
    savings_vs_current ["Diabetes Care"] demo_current_spend = some quoteD := by
  simp [savings_vs_current, bundle_price, sumPrices, lookupPlan, plans,
    List.lookup, any_two_plans_discount_pct, current_total, spendGet,
    demo_current_spend, quoteD]
  norm_num [pyRound, roundHalfEvenZ]

lemma savings_eval_H :
    savings_vs_current ["Heart Health"] demo_current_spend = some quoteH := by
  simp [savings_vs_current, bundle_price, sumPrices, lookupPlan, plans,
    List.lookup, any_two_plans_discount_pct, current_total, spendGet,
    demo_current_spend, quoteH]
  norm_num [pyRound, roundHalfEvenZ]

lemma savings_eval_DH :
    savings_vs_current ["Diabetes Care", "Heart Health"] demo_current_spend =
      some quoteDH := by
  simp [savings_vs_current, bundle_price, sumPrices, lookupPlan, plans,
    List.lookup, any_two_plans_discount_pct, current_total, spendGet,
    demo_current_spend, quoteDH]
  norm_num [pyRound, roundHalfEvenZ]

lemma roundHalfEvenZ_intCast (m : ℤ) : roundHalfEvenZ (m : ℚ) = m := by
  simp [roundHalfEvenZ]

lemma roundHalfUpZ_intCast (m : ℤ) : roundHalfUpZ (m : ℚ) = m := by
  have h0 : ⌊(1/2 : ℚ)⌋ = 0 := by norm_num
  rcases le_or_lt 0 (m : ℚ) with hm | hm
  · rw [roundHalfUpZ, if_pos hm, Int.floor_int_add, h0, add_zero]
  · rw [roundHalfUpZ, if_neg (not_le.mpr hm), ← Int.cast_neg,
      Int.floor_int_add, h0, add_zero, neg_neg]

/-- A rational with at most two decimal places is fixed by Python's
2-decimal rounding. -/
lemma pyRound_fix {q : ℚ} (m : ℤ) (h : q * 100 = m) : pyRound q 2 = q := by
  have h100 : ((10 : ℚ) ^ 2) = 100 := by norm_num
  rw [pyRound, h100, h, roundHalfEvenZ_intCast, ← h]
  field_simp

/-- A rational with at most two decimal places is fixed by 2-decimal
half-up rounding. -/
lemma roundHalfUp_fix {q : ℚ} (m : ℤ) (h : q * 100 = m) :
    roundHalfUp q 2 = q := by
  have h100 : ((10 : ℚ) ^ 2) = 100 := by norm_num
  rw [roundHalfUp, h100, h, roundHalfUpZ_intCast, ← h]
  field_simp

lemma roundHalfEvenZ_nonneg {q : ℚ} (h : 0 ≤ q) : 0 ≤ roundHalfEvenZ q := by
  have hf : (0 : ℤ) ≤ ⌊q⌋ := Int.floor_nonneg.mpr h
  simp only [roundHalfEvenZ]
  split_ifs <;> omega

lemma pyRound_nonneg {q : ℚ} (h : 0 ≤ q) : 0 ≤ pyRound q 2 := by
  have h1 : (0 : ℤ) ≤ roundHalfEvenZ (q * 10 ^ 2) := by
    apply roundHalfEvenZ_nonneg
    positivity
  rw [pyRound]
  positivity

/-- The output of 2-decimal rounding has at most two decimal places. -/
lemma pyRound_mul_100 (q : ℚ) :
    pyRound q 2 * 100 = (roundHalfEvenZ (q * 10 ^ 2) : ℚ) := by
  rw [pyRound]
  field_simp
  norm_num

/-- Every price in the plan table is 29 or 25. -/
lemma lookupPlan_cases {p : String} {price : ℚ}
    (h : lookupPlan p = some price) : price = 29 ∨ price = 25 := by
  simp only [lookupPlan, plans, List.lookup] at h
  split at h
  · exact Or.inl (Option.some.inj h).symm
  · split at h
    · exact Or.inr (Option.some.inj h).symm
    · exact absurd h (by simp)

lemma sumPrices_eq_none {sel : List String} {p : String} (hp : p ∈ sel)
    (h : lookupPlan p = none) : sumPrices sel = none := by
  induction sel with
  | nil => simp at hp
  | cons a as ih =>
    rcases List.mem_cons.mp hp with rfl | hmem
    · simp [sumPrices, h]
    · cases hl : lookupPlan a <;>
        simp [sumPrices, hl, ih hmem]

/-- A successful plan-price sum is a sum of integers, hence an integer. -/
lemma sumPrices_int {sel : List String} {base : ℚ}
    (h : sumPrices sel = some base) : ∃ n : ℤ, base = (n : ℚ) := by
  induction sel generalizing base with
  | nil =>
    simp [sumPrices] at h
    exact ⟨0, by simp [← h]⟩
  | cons a as ih =>
    rw [sumPrices] at h
    cases hl : lookupPlan a with
    | none => rw [hl] at h; simp at h
    | some v =>
      rw [hl] at h
      cases hs : sumPrices as with
      | none => rw [hs] at h; simp at h
      | some r =>
        rw [hs] at h
        simp at h
        obtain ⟨n, rfl⟩ := ih hs
        rcases lookupPlan_cases hl with rfl | rfl
        · exact ⟨29 + n, by rw [← h]; push_cast; ring⟩
        · exact ⟨25 + n, by rw [← h]; push_cast; ring⟩

/-- Evaluation of `bundle_price` on a nonempty selection whose price sum
succeeds. -/
lemma bundle_price_eval {sel : List String} {base : ℚ}
    (h : sumPrices sel = some base) (hne : ¬ sel.isEmpty = true) :
    bundle_price sel =
      some (pyRound (base * (1 -
        (if 2 ≤ sel.length then any_two_plans_discount_pct else 0) / 100))
        2) := by
  rw [bundle_price, if_neg hne, h]
  rfl

/-- The inference result is determined by the three keyword flags. -/
lemma infer_eq (u h : String) :
    infer_dynamic_context u h =
      some (inferResult (want_diabetes u h) (want_heart u h)
        (bundle_intent u h)) := by
  cases hd : want_diabetes u h <;> cases hh : want_heart u h <;>
    cases hb : bundle_intent u h <;>
      simp [infer_dynamic_context, hd, hh, hb, inferResult, selOf, spqOf,
        savings_eval_D, savings_eval_H, savings_eval_DH]

/-- C1: a selection containing a name absent from the catalog's plan table
makes every pricing function fail (the Python `KeyError` from the plan
lookup, embedded as `none`) rather than silently treating the unknown name
as contributing zero cost. -/
theorem unknown_offering_rejected (sel : List String)
    (spend : List (String × ℚ)) (p : String) (hp : p ∈ sel)
    (h : lookupPlan p = none) :
    bundle_price sel = none ∧ savings_vs_current sel spend = none := by
  have hs : sumPrices sel = none := sumPrices_eq_none hp h
  have hne : sel.isEmpty = false := by
    cases sel
    · simp at hp
    · rfl
  have hb : bundle_price sel = none := by
    simp [bundle_price, hne, hs]
  exact ⟨hb, by simp [savings_vs_current, hb]⟩

/-- Witness for C1 at the concrete unknown name "Ozempic". -/
theorem unknown_offering_rejected_witness :
    bundle_price ["Ozempic"] = none ∧
    savings_vs_current ["Ozempic"] demo_current_spend = none :=
  unknown_offering_rejected ["Ozempic"] demo_current_spend "Ozempic"
    (by decide) (by simp [lookupPlan, plans, List.lookup])

/-- C3: no discount applies below bundle size 2: the empty selection prices
to 0 and a one-element selection of a valid offering prices to exactly that
offering's unit price. -/
theorem no_discount_below_two :
    bundle_price [] = some 0 ∧
    ∀ p price, lookupPlan p = some price → bundle_price [p] = some price := by
  constructor
  · simp [bundle_price]
  · intro p price h
    rcases lookupPlan_cases h with rfl | rfl
    · simp [bundle_price, sumPrices, h]
      rw [pyRound_fix 2900 (by norm_num)]
    · simp [bundle_price, sumPrices, h]
      rw [pyRound_fix 2500 (by norm_num)]

/-- Witness for C3 at the concrete offering "Heart Health". -/
theorem no_discount_below_two_witness :
    bundle_price ["Heart Health"] = some 25 :=
  no_discount_below_two.2 "Heart Health" 25
    (by simp [lookupPlan, plans, List.lookup])

/-- C4: the catalog's two offerings priced 29 and 25, at the 10% discount
applying from selection size 2 on, price to round((29+25)*0.9, 2) = 48.6. -/
theorem two_plan_bundle_price :
    bundle_price ["Diabetes Care", "Heart Health"] =
      some (roundHalfUp ((29 + 25) * (1 - 10 / 100)) 2) ∧
    roundHalfUp ((29 + 25) * (1 - 10 / 100)) 2 = 48.6 := by
  have h : roundHalfUp ((29 + 25 : ℚ) * (1 - 10 / 100)) 2 = 243/5 := by
    rw [roundHalfUp_fix 4860 (by norm_num)]
    norm_num
  constructor
  · rw [h]
    simp [bundle_price, sumPrices, lookupPlan, plans, List.lookup,
      any_two_plans_discount_pct]
    norm_num [pyRound, roundHalfEvenZ]
  · rw [h]
    norm_num

/-- C6: every quote produced by savings_vs_current satisfies
annual_savings = monthly_savings * 12 exactly (the final rounding is the
identity because monthly_savings already has at most two decimals). -/
theorem annual_is_twelve_monthly (sel : List String)
    (spend : List (String × ℚ)) (q : SavingsQuote)
    (h : savings_vs_current sel spend = some q) :
    q.annual_savings = q.monthly_savings * 12 := by
  rw [savings_vs_current] at h
  cases hb : bundle_price sel with
  | none => rw [hb] at h; simp at h
  | some n =>
    rw [hb] at h
    rw [Option.map_some'] at h
    obtain rfl := Option.some.inj h
    show pyRound (pyRound (max (current_total sel spend - n) 0) 2 * 12) 2 =
      pyRound (max (current_total sel spend - n) 0) 2 * 12
    apply pyRound_fix
      (roundHalfEvenZ (max (current_total sel spend - n) 0 * 10 ^ 2) * 12)
    push_cast
    rw [mul_right_comm, pyRound_mul_100]

/-- Witness for C6 at the concrete selection ["Diabetes Care"]. -/
theorem annual_is_twelve_monthly_witness :
    quoteD.annual_savings = quoteD.monthly_savings * 12 :=
  annual_is_twelve_monthly ["Diabetes Care"] demo_current_spend quoteD
    savings_eval_D

/-- C2 counterexample: with a baseline spend of 42.005 on Metformin and the
selection ["Diabetes Care"], the produced monthly_savings is 13, not
max(42.005 - 29, 0) = 13.005: the code rounds the clamped difference to two
decimals, so monthly_savings does not equal the unrounded max for every
baseline spend map. -/
theorem monthly_savings_formula_cex :
    savings_vs_current ["Diabetes Care"] [("Metformin", 8401/200)] =
      some ⟨42, 29, 13, 156⟩ ∧
    ¬ ((13 : ℚ) = max ((8401 : ℚ)/200 - 29) 0) := by
  constructor
  · simp [savings_vs_current, bundle_price, sumPrices, lookupPlan, plans,
      List.lookup, any_two_plans_discount_pct, current_total, spendGet]
    norm_num [pyRound, roundHalfEvenZ]
  · have hm : max ((8401 : ℚ)/200 - 29) 0 = 2601/200 := by
      rw [max_eq_left (by norm_num : (0 : ℚ) ≤ 8401/200 - 29)]
      norm_num
    rw [hm]
    norm_num

/-- C2 amended: monthly_savings equals the clamped difference
max(current - new_bundle_price, 0) rounded to two decimals, and is
therefore never negative. -/
theorem monthly_savings_clamped (sel : List String)
    (spend : List (String × ℚ)) (q : SavingsQuote)
    (h : savings_vs_current sel spend = some q) :
    0 ≤ q.monthly_savings ∧
    q.monthly_savings =
      pyRound (max (current_total sel spend - q.new_monthly) 0) 2 := by
  rw [savings_vs_current] at h
  cases hb : bundle_price sel with
  | none => rw [hb] at h; simp at h
  | some n =>
    rw [hb, Option.map_some'] at h
    obtain rfl := Option.some.inj h
    exact ⟨pyRound_nonneg (le_max_right _ _), rfl⟩

/-- Witness for the amended C2 at the concrete selection ["Diabetes Care"]
and the demo spend map. -/
theorem monthly_savings_clamped_witness :
    0 ≤ quoteD.monthly_savings ∧
    quoteD.monthly_savings =
      pyRound (max (current_total ["Diabetes Care"] demo_current_spend -
        quoteD.new_monthly) 0) 2 :=
  monthly_savings_clamped ["Diabetes Care"] demo_current_spend quoteD
    savings_eval_D

/-- C5: for every selection whose price sum succeeds, the bundle price is
the raw discounted sum rounded to two decimal places by half-up rounding
(ties away from zero at the third decimal): on all reachable values the raw
sum is an integer times 0.9 or 1, so the code's half-even rounding and the
spec's half-up rounding coincide. -/
theorem bundle_price_half_up (sel : List String) (base : ℚ)
    (h : sumPrices sel = some base) :
    bundle_price sel = some (roundHalfUp (base *
      (1 - (if 2 ≤ sel.length then any_two_plans_discount_pct else 0) / 100))
      2) := by
  obtain ⟨n, rfl⟩ := sumPrices_int h
  have hm : ∃ m : ℤ, ((n : ℚ) * (1 -
      (if 2 ≤ sel.length then any_two_plans_discount_pct else 0) / 100)) *
        100 = (m : ℚ) := by
    split
    · exact ⟨n * 90, by rw [any_two_plans_discount_pct]; push_cast; ring⟩
    · exact ⟨n * 100, by push_cast; ring⟩
  obtain ⟨m, hm⟩ := hm
  rw [roundHalfUp_fix m hm]
  cases sel with
  | nil =>
    rw [sumPrices] at h
    have h0 : (0 : ℚ) = (n : ℚ) := Option.some.inj h
    simp [bundle_price, ← h0]
  | cons a as =>
    rw [bundle_price_eval h (by simp), pyRound_fix m hm]

/-- Witness for C5 at the full two-plan selection. -/
theorem bundle_price_half_up_witness :
    sumPrices ["Diabetes Care", "Heart Health"] = some 54 ∧
    bundle_price ["Diabetes Care", "Heart Health"] =
      some (roundHalfUp ((54 : ℚ) * (1 -
        (if 2 ≤ (["Diabetes Care", "Heart Health"] : List String).length then
          any_two_plans_discount_pct else 0) / 100)) 2) := by
  have hs : sumPrices ["Diabetes Care", "Heart Health"] = some 54 := by
    simp [sumPrices, lookupPlan, plans, List.lookup]
    norm_num
  exact ⟨hs, bundle_price_half_up _ _ hs⟩

/-- C7: the inferencer is total and deterministic over its two string
inputs (a pure function that never fails), and when no offering keyword and
no bundle keyword occurs in the case-folded concatenated inputs it returns
the empty selection and the empty quotes mapping. -/
theorem infer_total_and_empty :
    (∀ u h, (infer_dynamic_context u h).isSome = true) ∧
    (∀ u h, (∀ k ∈ keywords, strContains (infer_text u h) k = false) →
      infer_dynamic_context u h = some ⟨[], none, none, none⟩) := by
  constructor
  · intro u h
    rw [infer_eq]
    rfl
  · intro u h hk
    have hd : want_diabetes u h = false := by
      rw [want_diabetes, hk "diabetes" (by decide),
        hk "metformin" (by decide)]
      rfl
    have hh : want_heart u h = false := by
      rw [want_heart, hk "blood pressure" (by decide), hk " bp " (by decide),
        hk "ace" (by decide), hk "heart" (by decide)]
      rfl
    have hb : bundle_intent u h = false := by
      rw [bundle_intent, hk "bundle" (by decide), hk "both" (by decide),
        hk "together" (by decide)]
      rfl
    rw [infer_eq, hd, hh, hb]
    rfl

/-- Witness for C7 on a keyword-free input. -/
theorem infer_total_and_empty_witness :
    infer_dynamic_context "hi there" "" = some ⟨[], none, none, none⟩ :=
  infer_total_and_empty.2 "hi there" "" (by decide)

/-- C8: bundle detection is independent of and additive to per-offering
keyword detection: whenever a bundle keyword ("bundle", "both", "together")
occurs in the case-folded input, the context carries a bundle_quote
covering every offering of the catalog, whatever the individual flags; and
the example input selects both offerings and still produces that
bundle_quote. -/
theorem bundle_detection_additive :
    (∀ u h, bundle_intent u h = true →
      ∃ c, infer_dynamic_context u h = some c ∧
        c.bundle_quote =
          savings_vs_current ["Diabetes Care", "Heart Health"]
            demo_current_spend ∧
        c.bundle_plans = some ["Diabetes Care", "Heart Health"]) ∧
    infer_dynamic_context "let\x27s bundle diabetes and heart together" "" =
      some ⟨["Diabetes Care", "Heart Health"], some quoteDH, some quoteDH,
        some ["Diabetes Care", "Heart Health"]⟩ := by
  constructor
  · intro u h hb
    refine ⟨_, infer_eq u h, ?_, ?_⟩ <;>
      simp [inferResult, hb, savings_eval_DH]
  · rw [infer_eq]
    have hd :
        want_diabetes "let\x27s bundle diabetes and heart together" "" =
          true := by decide
    have hh :
        want_heart "let\x27s bundle diabetes and heart together" "" =
          true := by decide
    have hb :
        bundle_intent "let\x27s bundle diabetes and heart together" "" =
          true := by decide
    rw [hd, hh, hb]
    rfl

/-- Witness for C8 at the concrete input "both". -/
theorem bundle_detection_additive_witness :
    ∃ c, infer_dynamic_context "both" "" = some c ∧
      c.bundle_quote =
        savings_vs_current ["Diabetes Care", "Heart Health"]
          demo_current_spend ∧
      c.bundle_plans = some ["Diabetes Care", "Heart Health"] :=
  bundle_detection_additive.1 "both" "" (by decide)

/-- C9: keyword detection is substring containment on the lower-cased
concatenation, not whole-word matching: "meet me in outer space" contains
the Heart Health keyword "ace" inside the word "space", so Heart Health is
selected and a selected_plans_quote is produced. -/
theorem substring_matching :
    strContains (infer_text "meet me in outer space" "") "ace" = true ∧
    infer_dynamic_context "meet me in outer space" "" =
      some ⟨["Heart Health"], some quoteH, none, none⟩ := by
  constructor
  · decide
  · rw [infer_eq]
    have hd : want_diabetes "meet me in outer space" "" = false := by decide
    have hh : want_heart "meet me in outer space" "" = true := by decide
    have hb : bundle_intent "meet me in outer space" "" = false := by decide
    rw [hd, hh, hb]
    rfl

/-- C10: for every pair of input strings the inference succeeds and its
selection has no duplicates, lists names in the fixed catalog order (it is
a sublist of ["Diabetes Care", "Heart Health"]) and contains only names
present in the plan table, so every quote the inferencer computes from its
own selection is produced without an unknown-offering lookup failure. -/
theorem selection_invariants (u h : String) :
    ∃ c, infer_dynamic_context u h = some c ∧
      List.Sublist c.selected_plans ["Diabetes Care", "Heart Health"] ∧
      c.selected_plans.Nodup ∧
      ∀ p ∈ c.selected_plans, (lookupPlan p).isSome = true := by
  refine ⟨_, infer_eq u h, ?_⟩
  cases hd : want_diabetes u h <;> cases hh : want_heart u h <;>
    cases hb : bundle_intent u h <;> refine ⟨?_, ?_, ?_⟩ <;> decide

end GoodRx
